import Mathlib

/-!
Verification of the webseed data-fetch subsystem
(src/libtransmission/webseed.cc) against its specification.

The development shallowly embeds the C++ code:
pure policy code (ConnectionLimiter) becomes functions on an explicit
state record; the webseed completion handler and request issuance become
pure state-transition functions that also return the lists of effects
(published peer events, dispatched cache writes, issued HTTP fetches)
they would perform.  Machine integers (size_t, uint64_t, time_t) are
modelled as Nat: none of the modelled arithmetic can overflow or go
negative on the reachable states considered (the code asserts
n_tasks > 0 before decrementing, and byte offsets stay within the
torrent's total size).
-/

namespace Webseed

/-! ## ConnectionLimiter (webseed.cc lines 93-163) -/

/-- State of the ConnectionLimiter: count of outstanding tasks,
count of consecutive failures, and the pause deadline (a time_t,
modelled as Nat; 0 means no pause). -/
structure ConnectionLimiter where
  n_tasks : Nat
  n_consecutive_failures : Nat
  paused_until : Nat
deriving DecidableEq

namespace ConnectionLimiter

/-- webseed.cc line 156: TimeoutIntervalSecs = 120. -/
def TimeoutIntervalSecs : Nat := 120

/-- webseed.cc line 157: MaxConnections = 4. -/
def MaxConnections : Nat := 4

/-- webseed.cc line 158: MaxConsecutiveFailures = MaxConnections. -/
def MaxConsecutiveFailures : Nat := MaxConnections

/-- The default-constructed limiter (webseed.cc lines 160-162). -/
def initial : ConnectionLimiter :=
  { n_tasks := 0, n_consecutive_failures := 0, paused_until := 0 }

/-- taskStarted (webseed.cc lines 96-99): increments the outstanding count. -/
def taskStarted (s : ConnectionLimiter) : ConnectionLimiter :=
  { s with n_tasks := s.n_tasks + 1 }

/-- taskFailed (webseed.cc lines 146-154), with tr_time() passed in as now:
increments the consecutive-failure count and, once it reaches
MaxConsecutiveFailures, sets paused_until = now + TimeoutIntervalSecs. -/
def taskFailed (s : ConnectionLimiter) (now : Nat) : ConnectionLimiter :=
  let f := s.n_consecutive_failures + 1
  { s with
    n_consecutive_failures := f
    paused_until := if MaxConsecutiveFailures ≤ f then now + TimeoutIntervalSecs else s.paused_until }

/-- taskFinished (webseed.cc lines 101-110): on failure first runs
taskFailed, then decrements the outstanding count. -/
def taskFinished (s : ConnectionLimiter) (success : Bool) (now : Nat) : ConnectionLimiter :=
  let s1 := if success then s else s.taskFailed now
  { s1 with n_tasks := s1.n_tasks - 1 }

/-- gotData (webseed.cc lines 112-117): clears the failure count and the pause. -/
def gotData (s : ConnectionLimiter) : ConnectionLimiter :=
  { s with n_consecutive_failures := 0, paused_until := 0 }

/-- isPaused (webseed.cc lines 136-139): the pause deadline is in the future. -/
def isPaused (s : ConnectionLimiter) (now : Nat) : Bool :=
  now < s.paused_until

/-- maxConnections (webseed.cc lines 141-144): one probing slot after any
failure, otherwise the fixed ceiling. -/
def maxConnections (s : ConnectionLimiter) : Nat :=
  if 0 < s.n_consecutive_failures then 1 else MaxConnections

/-- slotsAvailable (webseed.cc lines 119-133). -/
def slotsAvailable (s : ConnectionLimiter) (now : Nat) : Nat :=
  if s.isPaused now then 0
  else
    let mx := s.maxConnections
    if mx ≤ s.n_tasks then 0 else mx - s.n_tasks

/-- One taskStarted/taskFinished(false) pair, finishing at time now. -/
def applyFailPair (s : ConnectionLimiter) (now : Nat) : ConnectionLimiter :=
  (s.taskStarted).taskFinished false now

/-- Run a sequence of taskStarted/taskFinished(false) pairs from the
fresh limiter; the list holds the time of each completion. -/
def runFailPairs (times : List Nat) : ConnectionLimiter :=
  times.foldl applyFailPair initial

end ConnectionLimiter

open ConnectionLimiter

/-- Effect of a fail pair on the fields, from any state. -/
theorem applyFailPair_fields (s : ConnectionLimiter) (now : Nat) :
    (s.applyFailPair now).n_tasks = s.n_tasks ∧
    (s.applyFailPair now).n_consecutive_failures = s.n_consecutive_failures + 1 ∧
    (s.applyFailPair now).paused_until =
      (if MaxConsecutiveFailures ≤ s.n_consecutive_failures + 1
        then now + TimeoutIntervalSecs else s.paused_until) := by
  refine ⟨?_, rfl, rfl⟩
  simp [ConnectionLimiter.applyFailPair, ConnectionLimiter.taskFinished,
    ConnectionLimiter.taskFailed, ConnectionLimiter.taskStarted]

/-- A run of fail pairs keeps the outstanding count at zero and counts
every failure. -/
theorem runFailPairs_counts (ts : List Nat) :
    (runFailPairs ts).n_tasks = 0 ∧
    (runFailPairs ts).n_consecutive_failures = ts.length := by
  suffices h : ∀ (l : List Nat) (s : ConnectionLimiter),
      (l.foldl ConnectionLimiter.applyFailPair s).n_tasks = s.n_tasks ∧
      (l.foldl ConnectionLimiter.applyFailPair s).n_consecutive_failures =
        s.n_consecutive_failures + l.length by
    have := h ts initial
    simpa [runFailPairs, initial] using this
  intro l
  induction l with
  | nil => intro s; simp
  | cons a l ih =>
    intro s
    have hf := applyFailPair_fields s a
    have := ih (s.applyFailPair a)
    simp only [List.foldl_cons, List.length_cons]
    omega

/-- C5: for every ConnectionLimiter state, slotsAvailable returns 0 while
the pause timestamp lies in the future; otherwise it returns
max(0, effective_cap - outstanding), where effective_cap is 1 if the
consecutive-failure count is positive and the fixed ceiling 4 otherwise. -/
theorem C5_slots_available_formula (s : ConnectionLimiter) (now : Nat) :
    (s.slotsAvailable now : Int) =
      if now < s.paused_until then 0
      else
        max 0 ((if 0 < s.n_consecutive_failures then 1 else (4 : Int)) - s.n_tasks) := by
  unfold ConnectionLimiter.slotsAvailable ConnectionLimiter.isPaused
    ConnectionLimiter.maxConnections ConnectionLimiter.MaxConnections
  by_cases hp : now < s.paused_until
  · simp [hp]
  · by_cases hf : 0 < s.n_consecutive_failures
    · by_cases ht : 1 ≤ s.n_tasks
      · simp [hp, hf, ht] <;> omega
      · simp [hp, hf, ht] <;> omega
    · by_cases ht : 4 ≤ s.n_tasks
      · simp [hp, hf, ht] <;> omega
      · simp [hp, hf, ht] <;> omega

/-- C7: gotData, from any prior state, zeroes the consecutive-failure
count and the pause timestamp and leaves the outstanding count unchanged. -/
theorem C7_got_data_resets (s : ConnectionLimiter) :
    (s.gotData).n_consecutive_failures = 0 ∧
    (s.gotData).paused_until = 0 ∧
    (s.gotData).n_tasks = s.n_tasks :=
  ⟨rfl, rfl, rfl⟩

/-- C1 counterexample: after four taskStarted/taskFinished(false) pairs at
time 0, the pause deadline is 120; at time 120 the cooldown has elapsed
(isPaused is false) and no gotData intervened, yet slotsAvailable
returns 1 (the single-probe cap), not the healthy ceiling 4 that the
claim asserts. -/
theorem C1_cex_post_cooldown_slots :
    (runFailPairs [0, 0, 0, 0]).isPaused 120 = false ∧
    ConnectionLimiter.slotsAvailable (runFailPairs [0, 0, 0, 0]) 120 = 1 ∧
    ConnectionLimiter.slotsAvailable (runFailPairs [0, 0, 0, 0]) 120 ≠ 4 := by
  decide

/-- C1 (amended): for every sequence of taskStarted/taskFinished(false)
pairs in which the consecutive-failure count reaches the threshold 4
(a final pair completing at time tlast after at least three earlier
pairs), slotsAvailable returns 0 until the 120-second cooldown elapses,
and after the cooldown elapses (no gotData intervening) it returns 1:
the consecutive-failure count is still positive, so the cap is the
single probing slot, not the healthy ceiling 4. -/
theorem C1_cooldown_then_single_slot (ts : List Nat) (tlast now : Nat)
    (h3 : 3 ≤ ts.length) :
    (now < tlast + 120 →
      ConnectionLimiter.slotsAvailable (runFailPairs (ts ++ [tlast])) now = 0) ∧
    (tlast + 120 ≤ now →
      ConnectionLimiter.slotsAvailable (runFailPairs (ts ++ [tlast])) now = 1) := by
  have hpre := runFailPairs_counts ts
  have hstep : runFailPairs (ts ++ [tlast]) =
      ConnectionLimiter.applyFailPair (runFailPairs ts) tlast := by
    simp [runFailPairs, List.foldl_append]
  have hfields := applyFailPair_fields (runFailPairs ts) tlast
  have hthresh : MaxConsecutiveFailures ≤ (runFailPairs ts).n_consecutive_failures + 1 := by
    simp only [MaxConsecutiveFailures, MaxConnections]
    omega
  have htasks : (runFailPairs (ts ++ [tlast])).n_tasks = 0 := by
    rw [hstep]; omega
  have hfail : 0 < (runFailPairs (ts ++ [tlast])).n_consecutive_failures := by
    rw [hstep]; omega
  have hpause : (runFailPairs (ts ++ [tlast])).paused_until = tlast + 120 := by
    rw [hstep]
    have := hfields.2.2
    rw [this, if_pos hthresh]
    rfl
  constructor
  · intro hnow
    unfold ConnectionLimiter.slotsAvailable ConnectionLimiter.isPaused
    rw [hpause]
    simp [hnow]
  · intro hnow
    unfold ConnectionLimiter.slotsAvailable ConnectionLimiter.isPaused
      ConnectionLimiter.maxConnections
    rw [hpause]
    have hnp : ¬ now < tlast + 120 := by omega
    simp [hnp, hfail, htasks]

/-- C1 witness: the amended theorem applied to the concrete run of four
fail pairs at time 0, evaluated just before and just after the cooldown. -/
theorem C1_cooldown_then_single_slot_witness :
    ConnectionLimiter.slotsAvailable (runFailPairs ([0, 0, 0] ++ [0])) 119 = 0 ∧
    ConnectionLimiter.slotsAvailable (runFailPairs ([0, 0, 0] ++ [0])) 120 = 1 :=
  ⟨(C1_cooldown_then_single_slot [0, 0, 0] 0 119 (by decide)).1 (by decide),
   (C1_cooldown_then_single_slot [0, 0, 0] 0 120 (by decide)).2 (by decide)⟩

/-! ## Torrent file layout (spec-modelled collaborator) -/

/-- Modelled from the spec: the torrent's file-layout and piece/block
indexing collaborator (block_loc, block_size, byte_loc, file_offset,
file_size of libtransmission's tr_torrent / tr_block_info), which is not
part of the reviewed sources.  Per spec sections 1, 3 and the glossary:
a torrent's bytes are the concatenation of its files (a list of file
sizes); blocks are fixed-size units, except possibly the last, addressed
by index. -/
structure Layout where
  blockSize : Nat
  files : List Nat
deriving DecidableEq

/-- A byte location resolved to its block coordinates, as used by the
webseed code (Location's byte, block and block_offset fields). -/
structure Location where
  byte : Nat
  block : Nat
  block_offset : Nat
deriving DecidableEq

namespace Layout

/-- Total number of bytes: the sum of the file sizes. -/
def totalSize (L : Layout) : Nat := L.files.sum

/-- Number of blocks: total size divided by block size, rounded up. -/
def nBlocks (L : Layout) : Nat := (L.totalSize + L.blockSize - 1) / L.blockSize

/-- Modelled from the spec: block_size(block) is the fixed block size for
every block except the final one, whose size is the remainder of the
total size. -/
def blockSizeOf (L : Layout) (b : Nat) : Nat :=
  if b + 1 = L.nBlocks then L.totalSize - (L.nBlocks - 1) * L.blockSize
  else L.blockSize

/-- Modelled from the spec: byte_loc resolves a byte offset to the block
containing it and the offset within that block.  The one-past-the-end
byte (offset = total size) is resolved to the final block with its
offset past that block, so that positions at the very end of the
torrent still name a valid block. -/
def byteLoc (L : Layout) (byte : Nat) : Location :=
  if byte = L.totalSize ∧ 0 < L.totalSize then
    { byte := byte
      block := L.nBlocks - 1
      block_offset := byte - (L.nBlocks - 1) * L.blockSize }
  else
    { byte := byte, block := byte / L.blockSize, block_offset := byte % L.blockSize }

/-- Modelled from the spec: block_loc gives the location of a block's
first byte. -/
def blockLoc (L : Layout) (b : Nat) : Location := L.byteLoc (b * L.blockSize)

/-- Modelled from the spec: file_offset resolves an absolute byte offset
to (file index, offset within that file) by walking the file list. -/
def findFile : List Nat → Nat → Nat × Nat
  | [], off => (0, off)
  | sz :: rest, off =>
    if off < sz then (0, off)
    else
      let r := findFile rest (off - sz)
      (r.1 + 1, r.2)

/-- file_offset on a layout. -/
def fileOffset (L : Layout) (byte : Nat) : Nat × Nat := findFile L.files byte

/-- file_size(i): the size of the i-th file (0 when out of range). -/
def fileSize (L : Layout) (i : Nat) : Nat := L.files.getD i 0

/-- Absolute byte offset at which the i-th file starts. -/
def fileStart (L : Layout) (i : Nat) : Nat := (L.files.take i).sum

end Layout

/-- Correctness of the file lookup: for a byte offset inside the torrent,
findFile returns an in-range file index, the offset decomposes as file
start plus offset-within-file, and the offset lies inside the file. -/
theorem findFile_spec (l : List Nat) (off : Nat) (h : off < l.sum) :
    (Layout.findFile l off).1 < l.length ∧
    (l.take (Layout.findFile l off).1).sum + (Layout.findFile l off).2 = off ∧
    (Layout.findFile l off).2 < l.getD (Layout.findFile l off).1 0 := by
  induction l generalizing off with
  | nil => simp at h
  | cons sz rest ih =>
    by_cases hlt : off < sz
    · simp [Layout.findFile, hlt]
    · have hrest : off - sz < rest.sum := by
        simp only [List.sum_cons] at h
        omega
      have := ih (off - sz) hrest
      simp only [Layout.findFile, hlt, if_false]
      refine ⟨by simpa using this.1, ?_, by simpa using this.2.2⟩
      simp only [List.take_succ_cons, List.sum_cons]
      omega

/-! ## FetchTask and the chunking protocol (webseed.cc lines 52-82, 494-520) -/

/-- One HTTP range request as computed by task_request_next_chunk
(webseed.cc lines 503-516): the file it targets, the offset within that
file, and the number of bytes (this_chunk). -/
structure Chunk where
  file : Nat
  offset : Nat
  size : Nat
deriving DecidableEq

/-- The inclusive HTTP byte range issued for a chunk (webseed.cc line 516:
range = "file_offset-(file_offset + this_chunk - 1)"). -/
def chunkRange (c : Chunk) : Nat × Nat := (c.offset, c.offset + c.size - 1)

/-- The chunk computation of task_request_next_chunk (lines 503-508) at
absolute position pos = task.loc.byte + buffered bytes:
resolve pos to (file_index, file_offset), then
this_chunk = min(left_in_file, left_in_task). -/
def nextChunk (L : Layout) (endByte pos : Nat) : Chunk :=
  let fo := L.fileOffset pos
  { file := fo.1
    offset := fo.2
    size := min (L.fileSize fo.1 - fo.2) (endByte - pos) }

/-- State of a tr_webseed_task (webseed.cc lines 52-82): the requested
block span, the absolute end byte, the cursor location, the number of
bytes currently buffered, and the dead flag.  The id models the task's
identity (its pointer) in the owner's task set. -/
structure Task where
  id : Nat
  blocks_begin : Nat
  blocks_end : Nat
  end_byte : Nat
  loc : Location
  buf_len : Nat
  dead : Bool
deriving DecidableEq

/-- The tr_webseed_task constructor (webseed.cc lines 58-65):
end_byte = block_loc(blocks.end - 1).byte + block_size(blocks.end - 1),
loc = block_loc(blocks.begin), empty buffer, not dead. -/
def mkTask (L : Layout) (tid : Nat) (span : Nat × Nat) : Task :=
  { id := tid
    blocks_begin := span.1
    blocks_end := span.2
    end_byte := (L.blockLoc (span.2 - 1)).byte + L.blockSizeOf (span.2 - 1)
    loc := L.blockLoc span.1
    buf_len := 0
    dead := false }

/-- The next chunk a task would request (webseed.cc line 503: position is
loc.byte plus the buffered byte count). -/
def taskNextChunk (L : Layout) (t : Task) : Chunk :=
  nextChunk L t.end_byte (t.loc.byte + t.buf_len)

/-- The sequence of chunks issued over a task's lifetime, assuming each
successful fetch delivers exactly its requested range: successive calls
of task_request_next_chunk see position advance by the previous chunk's
size (the drain loop keeps loc.byte + buffered constant).  Fuel bounds
the recursion; endByte - pos suffices once every chunk is nonempty. -/
def chunkSeq (L : Layout) (endByte : Nat) : Nat → Nat → List Chunk
  | 0, _ => []
  | fuel + 1, pos =>
    if pos < endByte then
      let c := nextChunk L endByte pos
      c :: chunkSeq L endByte fuel (pos + c.size)
    else []

/-- A chunk list tiles the byte interval from pos up to endByte: every
chunk is nonempty, sits at the running position (no gap, no overlap),
stays inside its file (its inclusive range never crosses the file
boundary), carries the correct file-relative offset, and the chunks end
exactly at endByte. -/
def chunksOk (L : Layout) (endByte : Nat) : Nat → List Chunk → Prop
  | pos, [] => pos = endByte
  | pos, c :: rest =>
    0 < c.size ∧
    c.file < L.files.length ∧
    L.fileStart c.file + c.offset = pos ∧
    c.offset + c.size ≤ L.fileSize c.file ∧
    chunksOk L endByte (pos + c.size) rest

/-- A positive block count forces a positive total size. -/
theorem totalSize_pos (L : Layout) (hB : 0 < L.blockSize) (hn : 0 < L.nBlocks) :
    0 < L.totalSize := by
  by_contra h
  have h0 : L.totalSize = 0 := by omega
  unfold Layout.nBlocks at hn
  rw [h0] at hn
  have : (0 + L.blockSize - 1) / L.blockSize = 0 := Nat.div_eq_of_lt (by omega)
  omega

/-- Ceiling-division bounds for the block count. -/
theorem nBlocks_bounds (L : Layout) (hB : 0 < L.blockSize) (h0 : 0 < L.totalSize) :
    0 < L.nBlocks ∧ (L.nBlocks - 1) * L.blockSize < L.totalSize ∧
      L.totalSize ≤ L.nBlocks * L.blockSize := by
  have hd := Nat.div_add_mod (L.totalSize + L.blockSize - 1) L.blockSize
  have hm := Nat.mod_lt (L.totalSize + L.blockSize - 1) hB
  have hqd : L.nBlocks = (L.totalSize + L.blockSize - 1) / L.blockSize := rfl
  rw [← hqd] at hd
  have hq1 : 0 < L.nBlocks := by
    rcases Nat.eq_zero_or_pos L.nBlocks with h | h
    · rw [h, Nat.mul_zero] at hd; omega
    · exact h
  have e1 : (L.nBlocks - 1) * L.blockSize = L.nBlocks * L.blockSize - L.blockSize := by
    rw [Nat.sub_mul, Nat.one_mul]
  have e2 : L.nBlocks * L.blockSize = L.blockSize * L.nBlocks := Nat.mul_comm _ _
  exact ⟨hq1, by omega, by omega⟩

/-- block_loc of an in-range block is the aligned location with zero
block offset. -/
theorem blockLoc_eq (L : Layout) (hB : 0 < L.blockSize) {b : Nat}
    (hb : b < L.nBlocks) :
    L.blockLoc b = { byte := b * L.blockSize, block := b, block_offset := 0 } := by
  have h0 : 0 < L.totalSize := totalSize_pos L hB (by omega)
  have hbnd := nBlocks_bounds L hB h0
  have hlt : b * L.blockSize < L.totalSize := by
    have hb1 : b ≤ L.nBlocks - 1 := by omega
    have h2 : b * L.blockSize ≤ (L.nBlocks - 1) * L.blockSize :=
      Nat.mul_le_mul_right _ hb1
    omega
  unfold Layout.blockLoc Layout.byteLoc
  have hne : ¬(b * L.blockSize = L.totalSize ∧ 0 < L.totalSize) := by
    intro h; omega
  rw [if_neg hne]
  simp [Nat.mul_div_cancel _ hB, Nat.mul_mod_left]

/-- The end byte of a constructed task: the total size when the span ends
at the final block, e * blockSize otherwise. -/
theorem mkTask_end_byte (L : Layout) (hB : 0 < L.blockSize) (tid b e : Nat)
    (he : 0 < e) (hn : e ≤ L.nBlocks) :
    (mkTask L tid (b, e)).end_byte =
      if e = L.nBlocks then L.totalSize else e * L.blockSize := by
  have h0 : 0 < L.totalSize := totalSize_pos L hB (by omega)
  have hbnd := nBlocks_bounds L hB h0
  have hloc := blockLoc_eq L hB (b := e - 1) (by omega)
  show (L.blockLoc (e - 1)).byte + L.blockSizeOf (e - 1) = _
  rw [hloc]
  dsimp only
  unfold Layout.blockSizeOf
  have hsucc : e - 1 + 1 = e := by omega
  rw [hsucc]
  by_cases hc : e = L.nBlocks
  · rw [if_pos hc, if_pos hc, hc]
    omega
  · rw [if_neg hc, if_neg hc]
    have e1 : (e - 1) * L.blockSize = e * L.blockSize - L.blockSize := by
      rw [Nat.sub_mul, Nat.one_mul]
    have e2 : L.blockSize ≤ e * L.blockSize := by
      calc L.blockSize = 1 * L.blockSize := by rw [Nat.one_mul]
        _ ≤ e * L.blockSize := Nat.mul_le_mul_right _ he
    omega

/-- Bounds on a constructed task's byte interval: it starts strictly
below its end byte, which never exceeds the torrent's total size. -/
theorem mkTask_span_bounds (L : Layout) (hB : 0 < L.blockSize) (tid b e : Nat)
    (hbe : b < e) (hn : e ≤ L.nBlocks) :
    (mkTask L tid (b, e)).loc.byte = b * L.blockSize ∧
    b * L.blockSize < (mkTask L tid (b, e)).end_byte ∧
    (mkTask L tid (b, e)).end_byte ≤ L.totalSize := by
  have h0 : 0 < L.totalSize := totalSize_pos L hB (by omega)
  have hbnd := nBlocks_bounds L hB h0
  have hloc : (mkTask L tid (b, e)).loc = L.blockLoc b := rfl
  have hlocEq := blockLoc_eq L hB (b := b) (by omega)
  have hend := mkTask_end_byte L hB tid b e (by omega) hn
  refine ⟨by rw [hloc, hlocEq], ?_, ?_⟩
  · rw [hend]
    by_cases hc : e = L.nBlocks
    · rw [if_pos hc]
      have hb1 : b ≤ L.nBlocks - 1 := by omega
      have h2 : b * L.blockSize ≤ (L.nBlocks - 1) * L.blockSize :=
        Nat.mul_le_mul_right _ hb1
      omega
    · rw [if_neg hc]
      exact (Nat.mul_lt_mul_right hB).mpr hbe
  · rw [hend]
    by_cases hc : e = L.nBlocks
    · rw [if_pos hc]
    · rw [if_neg hc]
      have he1 : e ≤ L.nBlocks - 1 := by omega
      have h2 : e * L.blockSize ≤ (L.nBlocks - 1) * L.blockSize :=
        Nat.mul_le_mul_right _ he1
      omega

/-- The chunk sequence from any position inside the task tiles the
remaining interval: every emitted chunk is nonempty, contiguous with its
predecessor, correctly file-relative, within one file, and the sequence
ends exactly at endByte. -/
theorem chunkSeq_ok (L : Layout) (endByte : Nat) (hend : endByte ≤ L.totalSize) :
    ∀ fuel pos, pos ≤ endByte → endByte - pos ≤ fuel →
      chunksOk L endByte pos (chunkSeq L endByte fuel pos) := by
  intro fuel
  induction fuel with
  | zero =>
    intro pos h1 h2
    have hpe : pos = endByte := by omega
    simp [chunkSeq, chunksOk, hpe]
  | succ n ih =>
    intro pos h1 h2
    by_cases hlt : pos < endByte
    · have hpt : pos < L.files.sum := by
        have : pos < L.totalSize := by omega
        simpa [Layout.totalSize] using this
      have hfs := findFile_spec L.files pos hpt
      have hsz : 0 < (nextChunk L endByte pos).size := by
        unfold nextChunk Layout.fileOffset Layout.fileSize at *
        simp only [lt_min_iff]
        exact ⟨by omega, by omega⟩
      simp only [chunkSeq, hlt, if_true]
      show chunksOk L endByte pos (nextChunk L endByte pos :: _)
      unfold chunksOk
      have hfile : (nextChunk L endByte pos).file = (Layout.findFile L.files pos).1 := rfl
      have hoff : (nextChunk L endByte pos).offset = (Layout.findFile L.files pos).2 := rfl
      have hszle : (nextChunk L endByte pos).size ≤
          L.fileSize (Layout.findFile L.files pos).1 - (Layout.findFile L.files pos).2 :=
        Nat.min_le_left _ _
      have hszle2 : (nextChunk L endByte pos).size ≤ endByte - pos :=
        Nat.min_le_right _ _
      refine ⟨hsz, by rw [hfile]; exact hfs.1, ?_, ?_, ?_⟩
      · rw [hfile, hoff]
        exact hfs.2.1
      · rw [hfile, hoff]
        have := hfs.2.2
        unfold Layout.fileSize at *
        omega
      · exact ih (pos + (nextChunk L endByte pos).size) (by omega) (by omega)
    · have hpe : pos = endByte := by omega
      simp [chunkSeq, hlt, chunksOk, hpe]

/-- C2: for a task over block span (b, e), the successive chunk requests
issued by task_request_next_chunk over the task's lifetime exactly tile
the task's byte interval from its start byte to end_byte with no gaps
and no overlaps (chunksOk), each chunk stays within a single file at
the stated file-relative offset, and the HTTP range issued for each
chunk is the inclusive interval from offset to offset + size - 1. -/
theorem C2_chunks_cover_span (L : Layout) (tid b e : Nat)
    (hfiles : ∀ f ∈ L.files, 0 < f)
    (hB : 0 < L.blockSize) (hbe : b < e) (hn : e ≤ L.nBlocks) :
    chunksOk L (mkTask L tid (b, e)).end_byte (mkTask L tid (b, e)).loc.byte
      (chunkSeq L (mkTask L tid (b, e)).end_byte
        ((mkTask L tid (b, e)).end_byte - (mkTask L tid (b, e)).loc.byte)
        (mkTask L tid (b, e)).loc.byte) ∧
    ∀ c, chunkRange c = (c.offset, c.offset + c.size - 1) := by
  have hbnd := mkTask_span_bounds L hB tid b e hbe hn
  refine ⟨?_, fun c => rfl⟩
  exact chunkSeq_ok L _ hbnd.2.2 _ _ (by omega) (by omega)

/-- C2 witness: a two-file layout (24 and 40 bytes, 16-byte blocks) with
the full four-block span; the chunk sequence is one 24-byte request in
file 0 followed by one 40-byte request in file 1. -/
theorem C2_chunks_cover_span_witness :
    chunksOk { blockSize := 16, files := [24, 40] }
      (mkTask { blockSize := 16, files := [24, 40] } 0 (0, 4)).end_byte
      (mkTask { blockSize := 16, files := [24, 40] } 0 (0, 4)).loc.byte
      (chunkSeq { blockSize := 16, files := [24, 40] }
        (mkTask { blockSize := 16, files := [24, 40] } 0 (0, 4)).end_byte
        ((mkTask { blockSize := 16, files := [24, 40] } 0 (0, 4)).end_byte -
          (mkTask { blockSize := 16, files := [24, 40] } 0 (0, 4)).loc.byte)
        (mkTask { blockSize := 16, files := [24, 40] } 0 (0, 4)).loc.byte) :=
  (C2_chunks_cover_span { blockSize := 16, files := [24, 40] } 0 0 4
    (by decide) (by decide) (by decide) (by decide)).1

/-- C9: whenever task_request_next_chunk computes a chunk for a task
whose cursor-plus-buffered position is strictly below end_byte, and the
task's end byte is within the torrent (as every constructed task's is),
the computed chunk size min(left_in_file, left_in_task) is strictly
positive, so the zero-size-chunk assertion never fires.  The file
lookup lands inside a file for any in-torrent position, so positivity
of the file sizes is not even needed. -/
theorem C9_chunk_size_positive (L : Layout) (t : Task)
    (hpos : t.loc.byte + t.buf_len < t.end_byte)
    (hend : t.end_byte ≤ L.totalSize) :
    0 < (taskNextChunk L t).size := by
  have hpt : t.loc.byte + t.buf_len < L.files.sum := by
    have : t.loc.byte + t.buf_len < L.totalSize := by omega
    simpa [Layout.totalSize] using this
  have hfs := findFile_spec L.files (t.loc.byte + t.buf_len) hpt
  unfold taskNextChunk nextChunk Layout.fileOffset Layout.fileSize at *
  simp only [lt_min_iff]
  exact ⟨by omega, by omega⟩

/-- C9 witness: the first chunk of the witness task of C2 (position 0,
end byte 64) has positive size. -/
theorem C9_chunk_size_positive_witness :
    0 < (taskNextChunk { blockSize := 16, files := [24, 40] }
      (mkTask { blockSize := 16, files := [24, 40] } 0 (0, 4))).size :=
  C9_chunk_size_positive { blockSize := 16, files := [24, 40] }
    (mkTask { blockSize := 16, files := [24, 40] } 0 (0, 4))
    (by decide) (by decide)

/-! ## The buffer drain loop (useFetchedBlocks, webseed.cc lines 359-397) -/

/-- The torrent collaborator as the webseed uses it: running/done state,
the file layout, and has_block.  getTorrent's possible failure is
modelled by passing an Option Torrent. -/
structure Torrent where
  is_running : Bool
  is_done : Bool
  layout : Layout
  has : Nat → Bool

/-- The drain loop of useFetchedBlocks (webseed.cc lines 372-396): while
the buffer holds at least block_size(loc.block) bytes, consume one block
(either discarding a duplicate or handing it off; the cursor advance is
the same either way), advance loc to byte_loc(loc.byte + block_size),
and record the processed block index.  Fuel bounds the recursion;
buffer length + 1 suffices because every block size is positive. -/
def drainLoop (L : Layout) : Nat → Location → Nat → Location × Nat × List Nat
  | 0, loc, len => (loc, len, [])
  | fuel + 1, loc, len =>
    if len < L.blockSizeOf loc.block then (loc, len, [])
    else
      let r := drainLoop L fuel (L.byteLoc (loc.byte + L.blockSizeOf loc.block))
        (len - L.blockSizeOf loc.block)
      (r.1, r.2.1, loc.block :: r.2.2)

/-- useFetchedBlocks (webseed.cc lines 359-397): returns unchanged if the
torrent is gone (lines 365-369), otherwise runs the drain loop on the
task's buffer.  Returns the updated task and the list of processed
block indices (cache writes are the processed blocks the torrent does
not already have; computed at the call site). -/
def useFetchedBlocks (tor : Option Torrent) (t : Task) : Task × List Nat :=
  match tor with
  | none => (t, [])
  | some T =>
    let r := drainLoop T.layout (t.buf_len + 1) t.loc t.buf_len
    ({ t with loc := r.1, buf_len := r.2.1 }, r.2.2)

/-- Every block's size is positive on a nonempty torrent. -/
theorem blockSizeOf_pos (L : Layout) (hB : 0 < L.blockSize)
    (h0 : 0 < L.totalSize) (b : Nat) : 0 < L.blockSizeOf b := by
  have hbnd := nBlocks_bounds L hB h0
  unfold Layout.blockSizeOf
  split <;> omega

/-- byte_loc for a byte strictly inside the torrent. -/
theorem byteLoc_lt (L : Layout) (b : Nat) (hb : b < L.totalSize) :
    L.byteLoc b =
      { byte := b, block := b / L.blockSize, block_offset := b % L.blockSize } := by
  unfold Layout.byteLoc
  rw [if_neg]
  intro h
  omega

/-- byte_loc at the one-past-the-end byte of a nonempty torrent. -/
theorem byteLoc_total (L : Layout) (h0 : 0 < L.totalSize) :
    L.byteLoc L.totalSize =
      { byte := L.totalSize, block := L.nBlocks - 1,
        block_offset := L.totalSize - (L.nBlocks - 1) * L.blockSize } := by
  unfold Layout.byteLoc
  rw [if_pos ⟨rfl, h0⟩]

/-- The drain loop stops as soon as the buffer holds less than one block. -/
theorem drainLoop_exit (L : Layout) (fuel : Nat) (loc : Location) (len : Nat)
    (h : len < L.blockSizeOf loc.block) :
    drainLoop L fuel loc len = (loc, len, []) := by
  cases fuel with
  | zero => rfl
  | succ n => simp [drainLoop, h]

/-- The drain loop's continuing step. -/
theorem drainLoop_cont (L : Layout) (fuel : Nat) (loc : Location) (len : Nat)
    (h : L.blockSizeOf loc.block ≤ len) :
    drainLoop L (fuel + 1) loc len =
      ((drainLoop L fuel (L.byteLoc (loc.byte + L.blockSizeOf loc.block))
          (len - L.blockSizeOf loc.block)).1,
        (drainLoop L fuel (L.byteLoc (loc.byte + L.blockSizeOf loc.block))
          (len - L.blockSizeOf loc.block)).2.1,
        loc.block ::
          (drainLoop L fuel (L.byteLoc (loc.byte + L.blockSizeOf loc.block))
            (len - L.blockSizeOf loc.block)).2.2) := by
  simp [drainLoop, Nat.not_lt.mpr h]

/-- Invariants of the drain loop, for a cursor that starts block-aligned
(or at the end byte) with the buffered bytes never overrunning the span:
the cursor stays consistent with byte_loc, stays aligned or lands on the
end byte, never decreases, preserves cursor + buffered, and the
processed blocks form a contiguous ascending run starting at the
cursor's block. -/
theorem drainLoop_spec (L : Layout) (endB : Nat) (hB : 0 < L.blockSize)
    (h0 : 0 < L.totalSize) (hend : endB ≤ L.totalSize) :
    ∀ fuel loc len,
      loc = L.byteLoc loc.byte →
      (loc.byte % L.blockSize = 0 ∧ loc.byte < endB ∨ loc.byte = endB) →
      loc.byte + len ≤ endB →
      (drainLoop L fuel loc len).1 = L.byteLoc (drainLoop L fuel loc len).1.byte ∧
      ((drainLoop L fuel loc len).1.byte % L.blockSize = 0 ∧
          (drainLoop L fuel loc len).1.byte < endB ∨
        (drainLoop L fuel loc len).1.byte = endB) ∧
      loc.byte ≤ (drainLoop L fuel loc len).1.byte ∧
      (drainLoop L fuel loc len).1.byte + (drainLoop L fuel loc len).2.1 =
        loc.byte + len ∧
      (drainLoop L fuel loc len).2.2 =
        List.range' loc.block (drainLoop L fuel loc len).2.2.length := by
  have hbnd := nBlocks_bounds L hB h0
  intro fuel
  induction fuel with
  | zero =>
    intro loc len h1 h2 h3
    exact ⟨h1, h2, Nat.le_refl _, rfl, by simp [drainLoop]⟩
  | succ fuel ih =>
    intro loc len h1 h2 h3
    by_cases hexit : len < L.blockSizeOf loc.block
    · rw [drainLoop_exit L _ _ _ hexit]
      exact ⟨h1, h2, Nat.le_refl _, rfl, by simp⟩
    · push_neg at hexit
      have hbspos : 0 < L.blockSizeOf loc.block := blockSizeOf_pos L hB h0 _
      have halign : loc.byte % L.blockSize = 0 ∧ loc.byte < endB := by
        rcases h2 with h | h
        · exact h
        · exfalso; omega
      have hltT : loc.byte < L.totalSize := by omega
      rw [byteLoc_lt L loc.byte hltT] at h1
      have hblock : loc.block = loc.byte / L.blockSize := by rw [h1]
      have hdvd : loc.byte / L.blockSize * L.blockSize = loc.byte :=
        Nat.div_mul_cancel (Nat.dvd_of_mod_eq_zero halign.1)
      rw [drainLoop_cont L fuel loc len hexit]
      by_cases hlast : loc.block + 1 = L.nBlocks
      · -- final block: the advance reaches the total size, hence the end byte
        have hbs : L.blockSizeOf loc.block =
            L.totalSize - (L.nBlocks - 1) * L.blockSize := by
          unfold Layout.blockSizeOf; rw [if_pos hlast]
        have hkB : loc.byte = loc.block * L.blockSize := by
          rw [hblock]; omega
        have hblk1 : loc.block = L.nBlocks - 1 := by omega
        have hmul : loc.block * L.blockSize = (L.nBlocks - 1) * L.blockSize := by
          rw [hblk1]
        have hbyte2 : loc.byte + L.blockSizeOf loc.block = L.totalSize := by
          rw [hbs, hkB, hmul]; omega
        have hendT : endB = L.totalSize := by omega
        have hlen : len = L.blockSizeOf loc.block := by omega
        rw [hbyte2]
        have hexit2 : len - L.blockSizeOf loc.block <
            L.blockSizeOf (L.byteLoc L.totalSize).block := by
          rw [byteLoc_total L h0]
          dsimp only
          have := blockSizeOf_pos L hB h0 (L.nBlocks - 1)
          omega
        rw [drainLoop_exit L _ _ _ hexit2]
        refine ⟨?_, ?_, ?_, ?_, ?_⟩
        · rw [byteLoc_total L h0]
          dsimp only
          rw [byteLoc_total L h0]
        · rw [byteLoc_total L h0]
          dsimp only
          omega
        · rw [byteLoc_total L h0]
          dsimp only
          omega
        · rw [byteLoc_total L h0]
          dsimp only
          omega
        · simp
      · -- interior block: the advance moves to the next aligned boundary
        have hbs : L.blockSizeOf loc.block = L.blockSize := by
          unfold Layout.blockSizeOf; rw [if_neg hlast]
        have hb2le : loc.byte + L.blockSizeOf loc.block ≤ endB := by omega
        by_cases hb2t : loc.byte + L.blockSizeOf loc.block = L.totalSize
        · -- the next boundary is the total size: the span is exhausted here
          have hendT : endB = L.totalSize := by omega
          have hlen : len = L.blockSizeOf loc.block := by omega
          rw [hb2t]
          have hexit2 : len - L.blockSizeOf loc.block <
              L.blockSizeOf (L.byteLoc L.totalSize).block := by
            rw [byteLoc_total L h0]
            dsimp only
            have := blockSizeOf_pos L hB h0 (L.nBlocks - 1)
            omega
          rw [drainLoop_exit L _ _ _ hexit2]
          refine ⟨?_, ?_, ?_, ?_, ?_⟩
          · rw [byteLoc_total L h0]
            dsimp only
            rw [byteLoc_total L h0]
          · rw [byteLoc_total L h0]
            dsimp only
            omega
          · rw [byteLoc_total L h0]
            dsimp only
            omega
          · rw [byteLoc_total L h0]
            dsimp only
            omega
          · simp
        · -- strictly interior: recurse with the invariant re-established
          have hb2lt : loc.byte + L.blockSizeOf loc.block < L.totalSize := by
            omega
          have hmod2 : (loc.byte + L.blockSizeOf loc.block) % L.blockSize = 0 := by
            rw [hbs, Nat.add_mod_right, halign.1]
          have hloc2 := byteLoc_lt L (loc.byte + L.blockSizeOf loc.block) hb2lt
          have hinv1 : L.byteLoc (loc.byte + L.blockSizeOf loc.block) =
              L.byteLoc (L.byteLoc (loc.byte + L.blockSizeOf loc.block)).byte := by
            rw [hloc2]
            dsimp only
            rw [hloc2]
          have hinv2 : (L.byteLoc (loc.byte + L.blockSizeOf loc.block)).byte %
                L.blockSize = 0 ∧
              (L.byteLoc (loc.byte + L.blockSizeOf loc.block)).byte < endB ∨
              (L.byteLoc (loc.byte + L.blockSizeOf loc.block)).byte = endB := by
            rw [hloc2]
            dsimp only
            omega
          have hinv3 : (L.byteLoc (loc.byte + L.blockSizeOf loc.block)).byte +
              (len - L.blockSizeOf loc.block) ≤ endB := by
            rw [hloc2]
            dsimp only
            omega
          have hr := ih (L.byteLoc (loc.byte + L.blockSizeOf loc.block))
            (len - L.blockSizeOf loc.block) hinv1 hinv2 hinv3
          have hb2byte : (L.byteLoc (loc.byte + L.blockSizeOf loc.block)).byte =
              loc.byte + L.blockSizeOf loc.block := by
            rw [hloc2]
          have hb2block : (L.byteLoc (loc.byte + L.blockSizeOf loc.block)).block =
              loc.block + 1 := by
            rw [hloc2]
            dsimp only
            rw [hbs, hblock]
            exact Nat.add_div_right loc.byte hB
          rw [hb2byte] at hr
          dsimp only
          refine ⟨hr.1, hr.2.1, ?_, ?_, ?_⟩
          · have := hr.2.2.1
            omega
          · have := hr.2.2.2.1
            omega
          · have hc5 := hr.2.2.2.2
            rw [hb2block] at hc5
            simp only [List.length_cons]
            rw [List.range'_succ]
            rw [← hc5]

/-- Ascending chains in arithmetic ranges with unit step. -/
theorem chain_ascending_range (s n : Nat) :
    List.Chain' (· < ·) (List.range' s n) := by
  cases n with
  | zero => simp
  | succ m =>
    rw [List.range'_succ]
    exact List.chain_lt_range' s m (by omega)

/-- C3 (amended): for a well-formed task state (cursor consistent with
byte_loc, block-aligned or at end_byte, buffered bytes never overrunning
the span, end_byte inside the torrent), draining via useFetchedBlocks
never moves the cursor backwards and never past end_byte; if the
resulting cursor sits mid-block its block-offset is non-zero; the
processed blocks come out in strictly ascending index order; and
whenever the cursor reaches end_byte the buffer is empty.  (The
converse of the last point is false: see the counterexample.)
task_request_next_chunk, the only other operation touching a live task,
leaves loc and the buffer unchanged, so the drain loop is the only
cursor mutator. -/
theorem C3_cursor_and_drain_invariants (T : Torrent) (t : Task)
    (hB : 0 < T.layout.blockSize)
    (h0 : 0 < T.layout.totalSize)
    (hend : t.end_byte ≤ T.layout.totalSize)
    (hloc : t.loc = T.layout.byteLoc t.loc.byte)
    (hpos : t.loc.byte % T.layout.blockSize = 0 ∧ t.loc.byte < t.end_byte ∨
      t.loc.byte = t.end_byte)
    (hbuf : t.loc.byte + t.buf_len ≤ t.end_byte) :
    t.loc.byte ≤ (useFetchedBlocks (some T) t).1.loc.byte ∧
    (useFetchedBlocks (some T) t).1.loc.byte ≤ t.end_byte ∧
    ((useFetchedBlocks (some T) t).1.loc.byte % T.layout.blockSize ≠ 0 →
      (useFetchedBlocks (some T) t).1.loc.block_offset ≠ 0) ∧
    List.Chain' (· < ·) (useFetchedBlocks (some T) t).2 ∧
    ((useFetchedBlocks (some T) t).1.loc.byte = t.end_byte →
      (useFetchedBlocks (some T) t).1.buf_len = 0) := by
  have hbnd := nBlocks_bounds T.layout hB h0
  have hd := drainLoop_spec T.layout t.end_byte hB h0 hend
    (t.buf_len + 1) t.loc t.buf_len hloc hpos hbuf
  have hu1 : (useFetchedBlocks (some T) t).1.loc =
      (drainLoop T.layout (t.buf_len + 1) t.loc t.buf_len).1 := rfl
  have hu2 : (useFetchedBlocks (some T) t).1.buf_len =
      (drainLoop T.layout (t.buf_len + 1) t.loc t.buf_len).2.1 := rfl
  have hu3 : (useFetchedBlocks (some T) t).2 =
      (drainLoop T.layout (t.buf_len + 1) t.loc t.buf_len).2.2 := rfl
  rw [hu1, hu2, hu3]
  refine ⟨hd.2.2.1, ?_, ?_, ?_, ?_⟩
  · rcases hd.2.1 with h | h <;> omega
  · intro hmod
    have hcons := hd.1
    by_cases ht : (drainLoop T.layout (t.buf_len + 1) t.loc t.buf_len).1.byte =
        T.layout.totalSize
    · rw [ht, byteLoc_total T.layout h0] at hcons
      rw [hcons]
      dsimp only
      omega
    · have hltT2 : (drainLoop T.layout (t.buf_len + 1) t.loc t.buf_len).1.byte <
          T.layout.totalSize := by
        rcases hd.2.1 with h | h <;> omega
      rw [byteLoc_lt T.layout _ hltT2] at hcons
      rw [hcons]
      dsimp only
      exact hmod
  · rw [hd.2.2.2.2]
    exact chain_ascending_range _ _
  · intro he
    have := hd.2.2.2.1
    omega

/-- C3 counterexample: a freshly constructed two-block task over a
32-byte single-file torrent, drained via useFetchedBlocks, has an empty
buffer while its cursor byte (0) differs from end_byte (32), so the
buffer being empty does not imply the cursor has reached end_byte: the
claimed equivalence fails in that direction. -/
theorem C3_cex_empty_buffer_mid_span :
    (useFetchedBlocks
      (some { is_running := true, is_done := false,
              layout := { blockSize := 16, files := [32] }, has := fun _ => false })
      (mkTask { blockSize := 16, files := [32] } 0 (0, 2))).1.buf_len = 0 ∧
    (useFetchedBlocks
      (some { is_running := true, is_done := false,
              layout := { blockSize := 16, files := [32] }, has := fun _ => false })
      (mkTask { blockSize := 16, files := [32] } 0 (0, 2))).1.loc.byte ≠
      (mkTask { blockSize := 16, files := [32] } 0 (0, 2)).end_byte := by
  constructor
  · rfl
  · decide

/-- C3 witness: the amended theorem applied to a task over the full span
of a 24+40-byte two-file torrent whose buffer holds the whole span. -/
theorem C3_cursor_and_drain_invariants_witness :
    let T : Torrent :=
      { is_running := true, is_done := false,
        layout := { blockSize := 16, files := [24, 40] }, has := fun _ => false }
    let t : Task :=
      { mkTask { blockSize := 16, files := [24, 40] } 0 (0, 4) with buf_len := 64 }
    t.loc.byte ≤ (useFetchedBlocks (some T) t).1.loc.byte ∧
    (useFetchedBlocks (some T) t).1.loc.byte ≤ t.end_byte ∧
    ((useFetchedBlocks (some T) t).1.loc.byte % T.layout.blockSize ≠ 0 →
      (useFetchedBlocks (some T) t).1.loc.block_offset ≠ 0) ∧
    List.Chain' (· < ·) (useFetchedBlocks (some T) t).2 ∧
    ((useFetchedBlocks (some T) t).1.loc.byte = t.end_byte →
      (useFetchedBlocks (some T) t).1.buf_len = 0) :=
  C3_cursor_and_drain_invariants
    { is_running := true, is_done := false,
      layout := { blockSize := 16, files := [24, 40] }, has := fun _ => false }
    { mkTask { blockSize := 16, files := [24, 40] } 0 (0, 4) with buf_len := 64 }
    (by decide) (by decide) (by decide) (by decide) (by decide) (by decide)

/-! ## The webseed pseudo-peer (tr_webseed, webseed.cc lines 168-316,
and its callbacks, lines 401-520) -/

/-- Peer events published via tr_webseed::publish (webseed.cc
lines 237-251, 292-298). -/
inductive PeerEvent
  | gotRejected (block : Nat)
  | gotPieceData (n_bytes : Nat)
  | gotBlock (block : Nat)
deriving DecidableEq

/-- The mutable state of a tr_webseed relevant to the claims: the active
task set (tasks), the connection limiter, and a fresh-id counter
standing in for pointer identity of newly allocated tasks. -/
structure WebseedState where
  tasks : List Task
  limiter : ConnectionLimiter
  next_id : Nat
deriving DecidableEq

/-- std::set::erase of a task pointer, by task identity. -/
def eraseTask (ts : List Task) (tid : Nat) : List Task :=
  ts.filter (fun x => x.id ≠ tid)

/-- activeReqCount(TR_CLIENT_TO_PEER) (webseed.cc lines 207-220): the sum
over active tasks of their span widths. -/
def activeReqCount (ts : List Task) : Nat :=
  (ts.map (fun t => t.blocks_end - t.blocks_begin)).sum

/-- The is-downloading flag of tr_webseedView (webseed.cc line 539):
whether the active task set is nonempty. -/
def isDownloadingView (ts : List Task) : Bool :=
  !ts.isEmpty

/-- webseed.cc line 436: success = (status == 206). -/
def isSuccess (status : Nat) : Bool := status == 206

/-- publishRejection (webseed.cc lines 244-251): one GotRejected event per
block of the span, in order. -/
def rejectionSpan (b e : Nat) : List PeerEvent :=
  (List.range' b (e - b)).map PeerEvent.gotRejected

/-- The guard of requestBlocks and canRequest (webseed.cc lines 255-259,
280-283): the operation aborts when the torrent is gone, not running,
or already done. -/
def torrentGone (tor : Option Torrent) : Bool :=
  match tor with
  | none => true
  | some T => !T.is_running || T.is_done

/-- ~tr_webseed (webseed.cc lines 190-195): flag every pending task as
dead and clear the active set.  Returns the new state and the detached
(now dead) tasks, which the HTTP layer still owns. -/
def webseedDestroy (w : WebseedState) : WebseedState × List Task :=
  ({ w with tasks := [] }, w.tasks.map (fun t => { t with dead := true }))

/-- The per-span loop body of requestBlocks (webseed.cc lines 261-269):
allocate a task, register it, issue its first chunk fetch (which also
increments the limiter, line 511), and notify the peer manager
(tr_peerMgrClientSentRequests).  Returns the new state, the issued
fetches, and the spans reported to the peer manager. -/
def requestBlocksLoop (T : Torrent) :
    WebseedState → List (Nat × Nat) → WebseedState × List Chunk × List (Nat × Nat)
  | w, [] => (w, [], [])
  | w, span :: rest =>
    let task := mkTask T.layout w.next_id span
    let w1 : WebseedState :=
      { tasks := w.tasks ++ [task]
        limiter := w.limiter.taskStarted
        next_id := w.next_id + 1 }
    let r := requestBlocksLoop T w1 rest
    (r.1, taskNextChunk T.layout task :: r.2.1, span :: r.2.2)

/-- requestBlocks (webseed.cc lines 253-270): returns immediately when
the torrent is gone, not running or done; otherwise runs the per-span
loop. -/
def requestBlocks (w : WebseedState) (tor : Option Torrent)
    (spans : List (Nat × Nat)) : WebseedState × List Chunk × List (Nat × Nat) :=
  match tor with
  | none => (w, [], [])
  | some T =>
    if !T.is_running || T.is_done then (w, [], [])
    else requestBlocksLoop T w spans

/-- The registration effect of the requestBlocks loop: the tasks it
appends, with sequentially assigned identities. -/
def mkTasks (L : Layout) : Nat → List (Nat × Nat) → List Task
  | _, [] => []
  | nid, span :: rest => mkTask L nid span :: mkTasks L (nid + 1) rest

/-- Everything onPartialDataFetched (webseed.cc lines 433-479) does,
as data: the resulting active set and limiter, whether the completed
task was freed, the peer events published, the block indices handed to
the cache write path, the follow-up fetches issued, and whether the
idle loop was re-triggered. -/
structure FetchOutcome where
  tasks : List Task
  limiter : ConnectionLimiter
  freed : Bool
  events : List PeerEvent
  writes : List Nat
  fetches : List Chunk
  ranIdle : Bool
deriving DecidableEq

/-- onPartialDataFetched (webseed.cc lines 433-479), with tr_time()
passed as now and getTorrent's result as tor.
Dead task (lines 440-444): free it and do nothing else.
Otherwise taskFinished(success) on the limiter (line 447); if the
torrent is gone, return (lines 449-452) leaving the task registered.
Failure (lines 454-460): publish rejections for the remaining span,
erase and free the task.  Success: drain the buffer (line 462,
dispatching cache writes for blocks not already present); if data is
still missing, issue the next chunk (lines 464-471, which increments
the limiter); else assert the buffer empty, erase and free the task and
re-run the idle loop (lines 473-478). -/
def onPartialDataFetched (now status : Nat) (tor : Option Torrent)
    (w : WebseedState) (t : Task) : FetchOutcome :=
  if t.dead then
    { tasks := w.tasks, limiter := w.limiter, freed := true,
      events := [], writes := [], fetches := [], ranIdle := false }
  else
    let lim := w.limiter.taskFinished (isSuccess status) now
    match tor with
    | none =>
      { tasks := w.tasks, limiter := lim, freed := false,
        events := [], writes := [], fetches := [], ranIdle := false }
    | some T =>
      if !(isSuccess status) then
        { tasks := eraseTask w.tasks t.id, limiter := lim, freed := true,
          events := rejectionSpan t.loc.block t.blocks_end,
          writes := [], fetches := [], ranIdle := false }
      else
        let r := useFetchedBlocks (some T) t
        let writes := r.2.filter (fun b => !T.has b)
        if r.1.loc.byte < r.1.end_byte then
          { tasks := w.tasks.map (fun x => if x.id = t.id then r.1 else x),
            limiter := lim.taskStarted, freed := false,
            events := [], writes := writes,
            fetches := [taskNextChunk T.layout r.1], ranIdle := false }
        else
          { tasks := eraseTask w.tasks t.id, limiter := lim, freed := true,
            events := [], writes := writes, fetches := [], ranIdle := true }

/-- onBufferGotData (webseed.cc lines 401-412): when bytes are added to a
live task's buffer, the webseed publishes GotPieceData and the limiter
gets gotData; a dead task's callback does nothing. -/
def onBufferGotData (n_added : Nat) (t : Task) (w : WebseedState) :
    WebseedState × List PeerEvent :=
  if n_added = 0 || t.dead then (w, [])
  else ({ w with limiter := w.limiter.gotData }, [PeerEvent.gotPieceData n_added])

/-- C4: destroying a webseed empties the active set and marks every
previously active task dead (as many detached tasks as there were
active ones); and any HTTP completion for a task whose dead flag is set
only frees the task: the webseed state is untouched (tasks and limiter
unchanged) and no event, cache write, follow-up fetch or idle trigger
happens, regardless of status and of whether the torrent exists. -/
theorem C4_destroy_detaches_and_dead_completion_is_noop
    (w : WebseedState) (now status : Nat) (tor : Option Torrent) (t : Task)
    (hdead : t.dead = true) :
    (webseedDestroy w).1.tasks = [] ∧
    (webseedDestroy w).2.length = w.tasks.length ∧
    (∀ t2 ∈ (webseedDestroy w).2, t2.dead = true) ∧
    onPartialDataFetched now status tor w t =
      { tasks := w.tasks, limiter := w.limiter, freed := true,
        events := [], writes := [], fetches := [], ranIdle := false } := by
  refine ⟨rfl, by simp [webseedDestroy], ?_, ?_⟩
  · intro t2 ht2
    simp only [webseedDestroy, List.mem_map] at ht2
    obtain ⟨a, _, rfl⟩ := ht2
    rfl
  · unfold onPartialDataFetched
    rw [if_pos hdead]

/-- C4 witness: a concrete dead task completing (status 206, torrent
gone) against a webseed holding one other task. -/
theorem C4_destroy_detaches_and_dead_completion_is_noop_witness :
    (webseedDestroy
      { tasks := [mkTask { blockSize := 16, files := [32] } 0 (0, 2)],
        limiter := ConnectionLimiter.initial, next_id := 1 }).1.tasks = [] ∧
    (webseedDestroy
      { tasks := [mkTask { blockSize := 16, files := [32] } 0 (0, 2)],
        limiter := ConnectionLimiter.initial, next_id := 1 }).2.length =
      ([mkTask { blockSize := 16, files := [32] } 0 (0, 2)] : List Task).length ∧
    (∀ t2 ∈ (webseedDestroy
      { tasks := [mkTask { blockSize := 16, files := [32] } 0 (0, 2)],
        limiter := ConnectionLimiter.initial, next_id := 1 }).2, t2.dead = true) ∧
    onPartialDataFetched 0 206 none
      { tasks := [mkTask { blockSize := 16, files := [32] } 0 (0, 2)],
        limiter := ConnectionLimiter.initial, next_id := 1 }
      { mkTask { blockSize := 16, files := [32] } 1 (0, 2) with dead := true } =
      { tasks := [mkTask { blockSize := 16, files := [32] } 0 (0, 2)],
        limiter := ConnectionLimiter.initial, freed := true,
        events := [], writes := [], fetches := [], ranIdle := false } :=
  C4_destroy_detaches_and_dead_completion_is_noop
    { tasks := [mkTask { blockSize := 16, files := [32] } 0 (0, 2)],
      limiter := ConnectionLimiter.initial, next_id := 1 }
    0 206 none
    { mkTask { blockSize := 16, files := [32] } 1 (0, 2) with dead := true }
    (by decide)

/-- C6: a completion counts as success exactly when the HTTP status is
206; and on a failed completion of a live task with the torrent still
present, the webseed publishes one GotRejected event per block from the
task's cursor block up to (excluding) the span's end block, removes the
task from the active set and frees it, with no cache write, no
follow-up fetch and no idle trigger, the limiter recording the
failure. -/
theorem C6_failure_rejects_remaining_span
    (now status : Nat) (T : Torrent) (w : WebseedState) (t : Task)
    (hdead : t.dead = false) (hfail : status ≠ 206) :
    (∀ s : Nat, isSuccess s = true ↔ s = 206) ∧
    onPartialDataFetched now status (some T) w t =
      { tasks := eraseTask w.tasks t.id,
        limiter := w.limiter.taskFinished false now,
        freed := true,
        events := (List.range' t.loc.block (t.blocks_end - t.loc.block)).map
          PeerEvent.gotRejected,
        writes := [], fetches := [], ranIdle := false } := by
  have hsucc : isSuccess status = false := by
    unfold isSuccess
    simp [hfail]
  refine ⟨?_, ?_⟩
  · intro s
    unfold isSuccess
    simp
  · unfold onPartialDataFetched
    rw [hdead]
    simp only [Bool.false_eq_true, if_false, hsucc, Bool.not_false, if_true]
    rfl

/-- C6 witness: a 404 completion for a live single-span task with a
live torrent. -/
theorem C6_failure_rejects_remaining_span_witness :
    (∀ s : Nat, isSuccess s = true ↔ s = 206) ∧
    onPartialDataFetched 5 404
      (some { is_running := true, is_done := false,
              layout := { blockSize := 16, files := [32] }, has := fun _ => false })
      { tasks := [mkTask { blockSize := 16, files := [32] } 0 (0, 2)],
        limiter := ConnectionLimiter.initial, next_id := 1 }
      (mkTask { blockSize := 16, files := [32] } 0 (0, 2)) =
      { tasks := eraseTask
          [mkTask { blockSize := 16, files := [32] } 0 (0, 2)]
          (mkTask { blockSize := 16, files := [32] } 0 (0, 2)).id,
        limiter := ConnectionLimiter.initial.taskFinished false 5,
        freed := true,
        events := (List.range'
            (mkTask { blockSize := 16, files := [32] } 0 (0, 2)).loc.block
            ((mkTask { blockSize := 16, files := [32] } 0 (0, 2)).blocks_end -
              (mkTask { blockSize := 16, files := [32] } 0 (0, 2)).loc.block)).map
          PeerEvent.gotRejected,
        writes := [], fetches := [], ranIdle := false } :=
  C6_failure_rejects_remaining_span 5 404
    { is_running := true, is_done := false,
      layout := { blockSize := 16, files := [32] }, has := fun _ => false }
    { tasks := [mkTask { blockSize := 16, files := [32] } 0 (0, 2)],
      limiter := ConnectionLimiter.initial, next_id := 1 }
    (mkTask { blockSize := 16, files := [32] } 0 (0, 2))
    (by decide) (by decide)

/-- C10: a completion for a live (non-dead) task whose torrent can no
longer be found records taskFinished on the limiter and then returns:
the task stays registered (tasks unchanged, not freed), no events,
writes or fetches happen, so activeReqCount and the view's
is-downloading flag are unchanged. -/
theorem C10_torrent_gone_keeps_task_registered
    (now status : Nat) (w : WebseedState) (t : Task)
    (hdead : t.dead = false) :
    onPartialDataFetched now status none w t =
      { tasks := w.tasks,
        limiter := w.limiter.taskFinished (isSuccess status) now,
        freed := false, events := [], writes := [], fetches := [],
        ranIdle := false } ∧
    activeReqCount (onPartialDataFetched now status none w t).tasks =
      activeReqCount w.tasks ∧
    isDownloadingView (onPartialDataFetched now status none w t).tasks =
      isDownloadingView w.tasks := by
  have h1 : onPartialDataFetched now status none w t =
      { tasks := w.tasks,
        limiter := w.limiter.taskFinished (isSuccess status) now,
        freed := false, events := [], writes := [], fetches := [],
        ranIdle := false } := by
    unfold onPartialDataFetched
    rw [hdead]
    rfl
  exact ⟨h1, by rw [h1], by rw [h1]⟩

/-- C10 witness: a 206 completion with the torrent gone leaves the
one-task active set in place. -/
theorem C10_torrent_gone_keeps_task_registered_witness :
    onPartialDataFetched 9 206 none
      { tasks := [mkTask { blockSize := 16, files := [32] } 0 (0, 2)],
        limiter := ConnectionLimiter.initial.taskStarted, next_id := 1 }
      (mkTask { blockSize := 16, files := [32] } 0 (0, 2)) =
      { tasks := [mkTask { blockSize := 16, files := [32] } 0 (0, 2)],
        limiter := (ConnectionLimiter.initial.taskStarted).taskFinished
          (isSuccess 206) 9,
        freed := false, events := [], writes := [], fetches := [],
        ranIdle := false } :=
  (C10_torrent_gone_keeps_task_registered 9 206
    { tasks := [mkTask { blockSize := 16, files := [32] } 0 (0, 2)],
      limiter := ConnectionLimiter.initial.taskStarted, next_id := 1 }
    (mkTask { blockSize := 16, files := [32] } 0 (0, 2))
    (by decide)).1

/-- The net effect of the requestBlocks loop: the spans' tasks are
appended with sequential identities, the limiter records one started
task per span (its failure count and pause untouched), each new task's
first chunk is fetched, and every span is reported to the peer
manager. -/
theorem requestBlocksLoop_spec (T : Torrent) :
    ∀ (spans : List (Nat × Nat)) (w : WebseedState),
      (requestBlocksLoop T w spans).1.tasks =
        w.tasks ++ mkTasks T.layout w.next_id spans ∧
      (requestBlocksLoop T w spans).1.next_id = w.next_id + spans.length ∧
      (requestBlocksLoop T w spans).1.limiter.n_tasks =
        w.limiter.n_tasks + spans.length ∧
      (requestBlocksLoop T w spans).1.limiter.n_consecutive_failures =
        w.limiter.n_consecutive_failures ∧
      (requestBlocksLoop T w spans).1.limiter.paused_until =
        w.limiter.paused_until ∧
      (requestBlocksLoop T w spans).2.1 =
        (mkTasks T.layout w.next_id spans).map (taskNextChunk T.layout) ∧
      (requestBlocksLoop T w spans).2.2 = spans := by
  intro spans
  induction spans with
  | nil =>
    intro w
    simp [requestBlocksLoop, mkTasks]
  | cons sp rest ih =>
    intro w
    have hr := ih
      { tasks := w.tasks ++ [mkTask T.layout w.next_id sp]
        limiter := w.limiter.taskStarted
        next_id := w.next_id + 1 }
    dsimp only at hr
    simp only [requestBlocksLoop, mkTasks, List.length_cons, List.map_cons]
    refine ⟨?_, ?_, ?_, ?_, ?_, ?_, ?_⟩
    · rw [hr.1]
      simp [List.append_assoc]
    · rw [hr.2.1]
      omega
    · rw [hr.2.2.1]
      have ht : (w.limiter.taskStarted).n_tasks = w.limiter.n_tasks + 1 := rfl
      omega
    · exact hr.2.2.2.1.trans rfl
    · exact hr.2.2.2.2.1.trans rfl
    · rw [hr.2.2.2.2.2.1]
    · rw [hr.2.2.2.2.2.2]

/-- C8: requestBlocks returns immediately with no state change and no
effect (no task created or registered, no fetch issued, no
peer-manager notification; it publishes no peer events anywhere)
whenever the torrent is gone, not running, or already done; otherwise
it registers one new task per span (appended with sequential
identities), counts one started task per span on the limiter, issues
each new task's first chunk fetch, and reports every span to the peer
manager. -/
theorem C8_request_blocks_guard_and_effects (w : WebseedState)
    (tor : Option Torrent) (spans : List (Nat × Nat)) :
    (torrentGone tor = true → requestBlocks w tor spans = (w, [], [])) ∧
    (∀ T, tor = some T → torrentGone tor = false →
      (requestBlocks w tor spans).1.tasks =
        w.tasks ++ mkTasks T.layout w.next_id spans ∧
      (requestBlocks w tor spans).1.limiter.n_tasks =
        w.limiter.n_tasks + spans.length ∧
      (requestBlocks w tor spans).2.1 =
        (mkTasks T.layout w.next_id spans).map (taskNextChunk T.layout) ∧
      (requestBlocks w tor spans).2.2 = spans) := by
  cases tor with
  | none =>
    refine ⟨fun _ => rfl, ?_⟩
    intro T hT
    exact Option.noConfusion hT
  | some T =>
    constructor
    · intro hg
      have hg2 : (!T.is_running || T.is_done) = true := hg
      simp only [requestBlocks]
      rw [if_pos hg2]
    · intro T2 hT2 hg
      have hTeq : T = T2 := by
        injection hT2 with h
      subst hTeq
      have hg2 : (!T.is_running || T.is_done) = false := hg
      have hred : requestBlocks w (some T) spans = requestBlocksLoop T w spans := by
        simp only [requestBlocks]
        rw [if_neg (by simp [hg2])]
      rw [hred]
      have hl := requestBlocksLoop_spec T spans w
      exact ⟨hl.1, hl.2.2.1, hl.2.2.2.2.2.1, hl.2.2.2.2.2.2⟩

/-- C8 witness: the guard part on a stopped torrent (state unchanged)
and the effect part on a running torrent with one two-block span. -/
theorem C8_request_blocks_guard_and_effects_witness :
    requestBlocks
      { tasks := [], limiter := ConnectionLimiter.initial, next_id := 0 }
      (some { is_running := false, is_done := false,
              layout := { blockSize := 16, files := [32] }, has := fun _ => false })
      [(0, 2)] =
      ({ tasks := [], limiter := ConnectionLimiter.initial, next_id := 0 }, [], []) ∧
    (requestBlocks
      { tasks := [], limiter := ConnectionLimiter.initial, next_id := 0 }
      (some { is_running := true, is_done := false,
              layout := { blockSize := 16, files := [32] }, has := fun _ => false })
      [(0, 2)]).1.tasks =
      [] ++ mkTasks { blockSize := 16, files := [32] } 0 [(0, 2)] :=
  ⟨(C8_request_blocks_guard_and_effects
      { tasks := [], limiter := ConnectionLimiter.initial, next_id := 0 }
      (some { is_running := false, is_done := false,
              layout := { blockSize := 16, files := [32] }, has := fun _ => false })
      [(0, 2)]).1 (by decide),
   ((C8_request_blocks_guard_and_effects
      { tasks := [], limiter := ConnectionLimiter.initial, next_id := 0 }
      (some { is_running := true, is_done := false,
              layout := { blockSize := 16, files := [32] }, has := fun _ => false })
      [(0, 2)]).2 _ rfl (by decide)).1⟩

end Webseed
